import Mathlib

/-!
Verification of the AI-Suggested Action Extraction & Execution Engine
(`src/ai/analyzer.rs` and `src/ai/executor.rs`).

The engine's text inputs are modelled as `List Char` (the sources are ASCII;
Rust byte indices coincide with character indices on all inputs considered
here).  JSON values are modelled by `Json` below; numbers keep their source
lexeme, since the engine only inspects numeric values through
`as_u64`-style views.
-/

namespace Cfai

/-- JSON values as produced by `serde_json` parsing.  Objects keep their
fields in source order, with duplicates preserved; key lookup takes the
last occurrence, matching `serde_json`'s map-insertion semantics. -/
inductive Json where
  | null : Json
  | bool : Bool → Json
  | num : String → Json
  | str : String → Json
  | arr : List Json → Json
  | obj : List (String × Json) → Json

/-- `Value::Index` for a string key (`params["key"]`): missing key or
non-object yields `Null`. -/
def Json.getKey : Json → String → Json
  | .obj fields, k =>
    match (fields.filter (fun p => p.1 = k)).getLast? with
    | some p => p.2
    | none => .null
  | _, _ => .null

/-- `Value::get` for a string key: `None` on a missing key or a non-object. -/
def Json.getOpt : Json → String → Option Json
  | .obj fields, k =>
    match (fields.filter (fun p => p.1 = k)).getLast? with
    | some p => some p.2
    | none => none
  | _, _ => none

/-- Whether the key is present (on an object). -/
def Json.hasKey (j : Json) (k : String) : Bool :=
  (j.getOpt k).isSome

/-- `Value::as_bool`. -/
def Json.asBool : Json → Option Bool
  | .bool b => some b
  | _ => none

/-- `Value::as_str`. -/
def Json.asStr : Json → Option String
  | .str s => some s
  | _ => none

/-- Numeric value of a list of decimal digits. -/
def natOfDigits (cs : List Char) : Nat :=
  cs.foldl (fun acc c => acc * 10 + (c.toNat - 48)) 0

/-- `Value::as_u64`: the number must have been lexed as an unsigned
integer (no sign, fraction or exponent) fitting in 64 bits. -/
def Json.asU64 : Json → Option Nat
  | .num lex =>
    let cs := lex.data
    if cs ≠ [] ∧ cs.all Char.isDigit ∧ natOfDigits cs < 2 ^ 64 then
      some (natOfDigits cs)
    else
      none
  | _ => none

/-- ASCII model of the whitespace trimmed by Rust's `str::trim` (the
engine only ever trims ASCII model output). -/
def isWsChar (c : Char) : Bool :=
  c = ' ' || c = '\t' || c = '\n' || c = '\r'

/-- `str::trim`. -/
def trimChars (cs : List Char) : List Char :=
  ((cs.dropWhile isWsChar).reverse.dropWhile isWsChar).reverse

/-- Character-wise ASCII lowercasing; agrees with Rust `str::to_lowercase`
on the ASCII tokens the engine compares against. -/
def toLowerStr (s : String) : String :=
  String.mk (s.data.map Char.toLower)

/-! ### JSON parsing (`serde_json::from_str` as used by the analyzer) -/

/-- JSON whitespace (RFC 8259). -/
def isJsonWs (c : Char) : Bool :=
  c = ' ' || c = '\t' || c = '\n' || c = '\r'

/-- Skip JSON whitespace. -/
def skipWs (cs : List Char) : List Char :=
  cs.dropWhile isJsonWs

/-- Hexadecimal digit value. -/
def hexVal (c : Char) : Option Nat :=
  if c.isDigit then some (c.toNat - 48)
  else if 'a' ≤ c ∧ c ≤ 'f' then some (c.toNat - 87)
  else if 'A' ≤ c ∧ c ≤ 'F' then some (c.toNat - 55)
  else none

/-- Value of four hex digits. -/
def hex4 (a b c d : Char) : Option Nat :=
  match hexVal a, hexVal b, hexVal c, hexVal d with
  | some x, some y, some z, some w => some (((x * 16 + y) * 16 + z) * 16 + w)
  | _, _, _, _ => none

/-- Body of a JSON string literal, after the opening quote.  Handles the
JSON escapes, `\uXXXX` with surrogate pairs, and rejects unescaped
control characters — as `serde_json` does. -/
def parseStringAux : List Char → List Char → Option (String × List Char)
  | acc, '"' :: rest => some (String.mk acc.reverse, rest)
  | acc, '\\' :: esc =>
    match esc with
    | '"' :: r => parseStringAux ('"' :: acc) r
    | '\\' :: r => parseStringAux ('\\' :: acc) r
    | '/' :: r => parseStringAux ('/' :: acc) r
    | 'b' :: r => parseStringAux (Char.ofNat 8 :: acc) r
    | 'f' :: r => parseStringAux (Char.ofNat 12 :: acc) r
    | 'n' :: r => parseStringAux ('\n' :: acc) r
    | 'r' :: r => parseStringAux ('\r' :: acc) r
    | 't' :: r => parseStringAux ('\t' :: acc) r
    | 'u' :: h1 :: h2 :: h3 :: h4 :: r =>
      match hex4 h1 h2 h3 h4 with
      | none => none
      | some n =>
        if 0xD800 ≤ n ∧ n ≤ 0xDBFF then
          match r with
          | '\\' :: 'u' :: k1 :: k2 :: k3 :: k4 :: r2 =>
            match hex4 k1 k2 k3 k4 with
            | some m =>
              if 0xDC00 ≤ m ∧ m ≤ 0xDFFF then
                parseStringAux
                  (Char.ofNat (0x10000 + (n - 0xD800) * 0x400 + (m - 0xDC00)) :: acc) r2
              else none
            | none => none
          | _ => none
        else if 0xDC00 ≤ n ∧ n ≤ 0xDFFF then none
        else parseStringAux (Char.ofNat n :: acc) r
    | _ => none
  | acc, c :: rest =>
    if c.toNat < 0x20 then none else parseStringAux (c :: acc) rest
  | _, [] => none

/-- Optional fraction part of a JSON number: either absent, or a dot
followed by at least one digit. -/
def parseFrac (cs : List Char) : Option (List Char × List Char) :=
  match cs with
  | '.' :: r =>
    let ds := r.takeWhile Char.isDigit
    if ds = [] then none
    else some ('.' :: ds, r.dropWhile Char.isDigit)
  | _ => some ([], cs)

/-- Optional exponent part of a JSON number. -/
def parseExpPart (cs : List Char) : Option (List Char × List Char) :=
  match cs with
  | e :: r =>
    if e = 'e' ∨ e = 'E' then
      let (sLex, r1) :=
        match r with
        | '+' :: rr => ((['+'] : List Char), rr)
        | '-' :: rr => (['-'], rr)
        | _ => ([], r)
      let ds := r1.takeWhile Char.isDigit
      if ds = [] then none
      else some (e :: (sLex ++ ds), r1.dropWhile Char.isDigit)
    else some ([], cs)
  | [] => some ([], [])

/-- A JSON number lexeme: optional sign, integer part (a lone `0` or a
nonzero-led digit run), optional fraction and exponent.  The lexeme is
kept verbatim. -/
def parseNumber (cs : List Char) : Option (String × List Char) :=
  let (sign, cs1) :=
    match cs with
    | '-' :: r => ((['-'] : List Char), r)
    | _ => ([], cs)
  let intPart : Option (List Char × List Char) :=
    match cs1 with
    | '0' :: r => some (['0'], r)
    | c :: _ =>
      if c.isDigit then
        some (cs1.takeWhile Char.isDigit, cs1.dropWhile Char.isDigit)
      else none
    | [] => none
  match intPart with
  | none => none
  | some (intLex, r1) =>
    match parseFrac r1 with
    | none => none
    | some (fracLex, r2) =>
      match parseExpPart r2 with
      | none => none
      | some (expLex, r3) =>
        some (String.mk (sign ++ intLex ++ fracLex ++ expLex), r3)

mutual

/-- Recursive-descent JSON value parser.  `fuel` only bounds the
recursion depth for termination; `parseJsonText` supplies more fuel
than any input can consume. -/
def parseValue : Nat → List Char → Option (Json × List Char)
  | 0, _ => none
  | Nat.succ fuel, cs =>
    match skipWs cs with
    | 'n' :: 'u' :: 'l' :: 'l' :: r => some (.null, r)
    | 't' :: 'r' :: 'u' :: 'e' :: r => some (.bool true, r)
    | 'f' :: 'a' :: 'l' :: 's' :: 'e' :: r => some (.bool false, r)
    | '"' :: r =>
      match parseStringAux [] r with
      | some (s, r1) => some (.str s, r1)
      | none => none
    | '{' :: r =>
      match skipWs r with
      | '}' :: r1 => some (.obj [], r1)
      | r1 => parseMembers fuel r1 []
    | '[' :: r =>
      match skipWs r with
      | ']' :: r1 => some (.arr [], r1)
      | r1 => parseItems fuel r1 []
    | rest =>
      match parseNumber rest with
      | some (lex, r1) => some (.num lex, r1)
      | none => none

/-- Members of a JSON object after the opening brace (non-empty case). -/
def parseMembers : Nat → List Char → List (String × Json) → Option (Json × List Char)
  | 0, _, _ => none
  | Nat.succ fuel, cs, acc =>
    match skipWs cs with
    | '"' :: r =>
      match parseStringAux [] r with
      | none => none
      | some (k, r1) =>
        match skipWs r1 with
        | ':' :: r2 =>
          match parseValue fuel r2 with
          | none => none
          | some (v, r3) =>
            match skipWs r3 with
            | ',' :: r4 => parseMembers fuel r4 (acc ++ [(k, v)])
            | '}' :: r4 => some (.obj (acc ++ [(k, v)]), r4)
            | _ => none
        | _ => none
    | _ => none

/-- Items of a JSON array after the opening bracket (non-empty case). -/
def parseItems : Nat → List Char → List Json → Option (Json × List Char)
  | 0, _, _ => none
  | Nat.succ fuel, cs, acc =>
    match parseValue fuel cs with
    | none => none
    | some (v, r1) =>
      match skipWs r1 with
      | ',' :: r2 => parseItems fuel r2 (acc ++ [v])
      | ']' :: r2 => some (.arr (acc ++ [v]), r2)
      | _ => none

end

/-- `serde_json::from_str::<Value>`: a single JSON value followed only by
whitespace. -/
def parseJsonText (cs : List Char) : Option Json :=
  match parseValue (2 * cs.length + 8) cs with
  | some (v, rest) => if skipWs rest = [] then some v else none
  | none => none

/-! ### The analyzer's data model (`analyzer.rs`) -/

/-- `SuggestedAction`: one AI-suggested operation.  `action_type` is the
JSON field `type` (serde rename); `risk` is a plain string, kept
verbatim by deserialization. -/
structure SuggestedAction where
  action_type : String
  description : String
  params : Json
  risk : String

/-- `AiActionPlan`: the shape the analyzer tries to deserialize from
model output.  Both fields are optional. -/
structure AiActionPlan where
  actions : Option (List SuggestedAction)
  explanation : Option String

/-- Number of occurrences of key `k` among an object's fields. -/
def countKey (fields : List (String × Json)) (k : String) : Nat :=
  (fields.filter (fun p => p.1 = k)).length

/-- First occurrence of a field (unique when `countKey` is 1). -/
def lookupField (fields : List (String × Json)) (k : String) : Option Json :=
  match fields.filter (fun p => p.1 = k) with
  | [] => none
  | p :: _ => some p.2

/-- serde-derived deserialization of `SuggestedAction` from a JSON value:
all four fields required exactly once (duplicate known fields are an
error), `type`/`description`/`risk` must be strings, `params` is any
value, unknown fields are ignored. -/
def decodeAction (v : Json) : Option SuggestedAction :=
  match v with
  | .obj fields =>
    if countKey fields "type" = 1 ∧ countKey fields "description" = 1 ∧
        countKey fields "params" = 1 ∧ countKey fields "risk" = 1 then
      match lookupField fields "type", lookupField fields "description",
          lookupField fields "params", lookupField fields "risk" with
      | some tj, some dj, some pj, some rj =>
        match tj.asStr, dj.asStr, rj.asStr with
        | some t, some d, some r => some ⟨t, d, pj, r⟩
        | _, _, _ => none
      | _, _, _, _ => none
    else none
  | _ => none

/-- Decode a JSON array's elements as actions, in order; any element
failing to decode fails the whole plan (serde `Vec` semantics). -/
def decodeActions : List Json → Option (List SuggestedAction)
  | [] => some []
  | v :: rest =>
    match decodeAction v, decodeActions rest with
    | some a, some as => some (a :: as)
    | _, _ => none

/-- serde-derived deserialization of `AiActionPlan` from a JSON value:
both fields optional (`null` or absent deserializes to `None`),
duplicate known fields are an error, unknown fields are ignored. -/
def decodePlan (v : Json) : Option AiActionPlan :=
  match v with
  | .obj fields =>
    if countKey fields "actions" ≤ 1 ∧ countKey fields "explanation" ≤ 1 then
      let actionsPart : Option (Option (List SuggestedAction)) :=
        match lookupField fields "actions" with
        | none => some none
        | some .null => some none
        | some (.arr items) =>
          match decodeActions items with
          | some acts => some (some acts)
          | none => none
        | some _ => none
      let explanationPart : Option (Option String) :=
        match lookupField fields "explanation" with
        | none => some none
        | some .null => some none
        | some (.str s) => some (some s)
        | some _ => none
      match actionsPart, explanationPart with
      | some a, some e => some ⟨a, e⟩
      | _, _ => none
    else none
  | _ => none

/-- `serde_json::from_str::<AiActionPlan>`. -/
def parsePlan (cs : List Char) : Option AiActionPlan :=
  (parseJsonText cs).bind decodePlan

/-! ### `extract_actions` (`analyzer.rs:156-173`) -/

/-- First index at which `pat` occurs in the text, starting the scan at
offset `i` (model of Rust `str::find`). -/
def findSubAux (pat : List Char) : List Char → Nat → Option Nat
  | [], i => if pat.isPrefixOf ([] : List Char) then some i else none
  | t@(_ :: rest), i =>
    if pat.isPrefixOf t then some i else findSubAux pat rest (i + 1)

/-- `text.find(pat)`: index of the first occurrence. -/
def findSub (text pat : List Char) : Option Nat :=
  findSubAux pat text 0

/-- The opening fence marker searched for by `extract_actions`. -/
def openMarker : List Char := "```json".data

/-- The closing fence marker. -/
def closeMarker : List Char := "```".data

/-- Attempt 2 of extraction: parse the whole text as an `AiActionPlan`
and return its `actions`. -/
def wholeAttempt (text : List Char) : Option (List SuggestedAction) :=
  match parsePlan text with
  | some plan => plan.actions
  | none => none

/-- `AiAnalyzer::extract_actions`: find the first ` ```json ` fence, take
the text up to the next ` ``` `, trim it and parse it as an
`AiActionPlan`; on a successful parse return its `actions` (even when
that is `none`), otherwise fall back to parsing the whole original text.
`none` models Rust's `None`: no action plan extracted (the spec's empty
ActionPlan with no explanation). -/
def extract_actions (text : List Char) : Option (List SuggestedAction) :=
  match findSub text openMarker with
  | some s =>
    let afterOpen := text.drop (s + 7)
    match findSub afterOpen closeMarker with
    | some e =>
      let jsonStr := trimChars (afterOpen.take e)
      match parsePlan jsonStr with
      | some plan => plan.actions
      | none => wholeAttempt text
    | none => wholeAttempt text
  | none => wholeAttempt text

/-! ### Rendering of JSON values (`serde_json` `Display`, used only in
report messages).  Objects are rendered in stored field order; the
executor never renders composite values in any claim considered here. -/

/-- Escape one character of a JSON string as `serde_json` does. -/
def escapeJsonFragment (c : Char) : String :=
  if c = '"' then "\\\""
  else if c = '\\' then "\\\\"
  else if c = '\x08' then "\\b"
  else if c = '\t' then "\\t"
  else if c = '\n' then "\\n"
  else if c = '\x0c' then "\\f"
  else if c = '\r' then "\\r"
  else if c.toNat < 0x20 then
    "\\u00" ++ String.mk [hexDigit (c.toNat / 16), hexDigit (c.toNat % 16)]
  else String.mk [c]
where
  /-- Lower-case hexadecimal digit. -/
  hexDigit (n : Nat) : Char :=
    if n < 10 then Char.ofNat (48 + n) else Char.ofNat (87 + n)

/-- Compact JSON serialization (`Value`'s `Display`). -/
def Json.render : Json → String
  | Json.null => "null"
  | Json.bool true => "true"
  | Json.bool false => "false"
  | Json.num lex => lex
  | Json.str s => "\"" ++ String.join (s.data.map escapeJsonFragment) ++ "\""
  | Json.arr items =>
    "[" ++ String.intercalate "," (items.attach.map (fun x => Json.render x.1)) ++ "]"
  | Json.obj fields =>
    "\x7b" ++ String.intercalate ","
      (fields.attach.map (fun x =>
        "\"" ++ String.join (x.1.1.data.map escapeJsonFragment) ++ "\":" ++
          Json.render x.1.2)) ++ "\x7d"
termination_by j => sizeOf j
decreasing_by
  · have := List.sizeOf_lt_of_mem x.2
    simp only [Json.arr.sizeOf_spec]
    omega
  · have h1 := List.sizeOf_lt_of_mem x.2
    have h2 : sizeOf x.1.2 < sizeOf x.1 := by
      obtain ⟨⟨a, b⟩, hm⟩ := x
      simp only [Prod.mk.sizeOf_spec]
      omega
    simp only [Json.obj.sizeOf_spec]
    omega

/-! ### The executor (`executor.rs`) -/

/-- A DNS record mutation request (`models::dns::DnsRecordRequest` as
built by the executor; `ttl` and `priority` carry the `as u32` / `as
u16` truncations applied by the source). -/
structure DnsRecordRequest where
  record_type : String
  name : String
  content : String
  ttl : Option Nat
  proxied : Option Bool
  priority : Option Nat
  comment : Option String
  tags : Option (List String)

/-- One remote-client operation, one variant per `CfClient` method the
executor calls. -/
inductive RemoteCall where
  | setSslMode (zoneId value : String)
  | setAlwaysHttps (zoneId : String) (enable : Bool)
  | setSslMinTls (zoneId value : String)
  | setOpportunisticEncryption (zoneId : String) (enable : Bool)
  | setAutomaticHttpsRewrites (zoneId : String) (enable : Bool)
  | updateZoneSetting (zoneId settingId : String) (value : Json)
  | createDnsRecord (zoneId : String) (req : DnsRecordRequest)
  | updateDnsRecord (zoneId recordId : String) (req : DnsRecordRequest)
  | deleteDnsRecord (zoneId recordId : String)
  | purgeAllCache (zoneId : String)
  | purgeCacheByUrls (zoneId : String) (urls : List String)
  | purgeCacheByTags (zoneId : String) (tags : List String)
  | purgeCacheByHosts (zoneId : String) (hosts : List String)
  | blockIp (zoneId ip : String) (note : Option String)
  | whitelistIp (zoneId ip : String) (note : Option String)
  | setSecurityLevel (zoneId level : String)
  | setUnderAttackMode (zoneId : String) (enable : Bool)
  | setBrowserCheck (zoneId : String) (enable : Bool)

/-- The remote client as an oracle: each call either succeeds (the
optional string is the created record's id, meaningful only for
`createDnsRecord`) or fails with a reason. -/
def Client : Type := RemoteCall → Except String (Option String)

/-- `params_to_bool` (`executor.rs:391-404`): a JSON boolean is taken
as-is; a string is matched, lowercased, against the recognized tokens;
any other shape — including an absent key — defaults to `true`. -/
def params_to_bool (params : Json) (key : String) : Except String Bool :=
  match (params.getKey key).asBool with
  | some b => .ok b
  | none =>
    match (params.getKey key).asStr with
    | some s =>
      let ls := toLowerStr s
      if ls = "true" ∨ ls = "on" ∨ ls = "yes" ∨ ls = "1" then .ok true
      else if ls = "false" ∨ ls = "off" ∨ ls = "no" ∨ ls = "0" then .ok false
      else .error ("无法解析 " ++ key ++ " 的值: " ++ s)
    | none => .ok true

/-- `json_array_to_strings`: keep the string elements of a JSON array;
`None` when the value is not an array. -/
def json_array_to_strings (value : Json) : Option (List String) :=
  match value with
  | .arr items => some (items.filterMap Json.asStr)
  | _ => none

/-- The result of dispatching one action: the remote calls issued (in
order) and the success message or failure reason. -/
def DispatchResult : Type := List RemoteCall × Except String String

/-- Issue one remote call and turn its result into a message. -/
def okCall (client : Client) (c : RemoteCall) (msg : Option String → String) :
    DispatchResult :=
  ([c], (client c).map msg)

/-- A validation failure: no remote call, an error message. -/
def vErr (e : String) : DispatchResult :=
  ([], .error e)

/-- `execute_ssl_action` (`executor.rs:138-183`). -/
def execute_ssl_action (client : Client) (zoneId : String) (params : Json) :
    DispatchResult :=
  match (params.getKey "setting").asStr with
  | none => vErr "ssl_set 缺少 setting 参数"
  | some setting =>
    if setting = "ssl_mode" then
      match (params.getKey "value").asStr with
      | none => vErr "缺少 value 参数"
      | some value =>
        okCall client (.setSslMode zoneId value)
          (fun _ => "SSL 模式已设置为: " ++ value)
    else if setting = "always_https" then
      match params_to_bool params "enable" with
      | .error e => vErr e
      | .ok enable =>
        okCall client (.setAlwaysHttps zoneId enable)
          (fun _ => "Always HTTPS 已" ++ (if enable then "开启" else "关闭"))
    else if setting = "min_tls_version" then
      match (params.getKey "value").asStr with
      | none => vErr "缺少 value 参数"
      | some value =>
        okCall client (.setSslMinTls zoneId value)
          (fun _ => "最小 TLS 版本已设置为: " ++ value)
    else if setting = "opportunistic_encryption" then
      match params_to_bool params "enable" with
      | .error e => vErr e
      | .ok enable =>
        okCall client (.setOpportunisticEncryption zoneId enable)
          (fun _ => "Opportunistic Encryption 已" ++
            (if enable then "开启" else "关闭"))
    else if setting = "automatic_https_rewrites" then
      match params_to_bool params "enable" with
      | .error e => vErr e
      | .ok enable =>
        okCall client (.setAutomaticHttpsRewrites zoneId enable)
          (fun _ => "Automatic HTTPS Rewrites 已" ++
            (if enable then "开启" else "关闭"))
    else vErr ("未知的 SSL 设置: " ++ setting)

/-- `execute_setting_update` (`executor.rs:187-204`). -/
def execute_setting_update (client : Client) (zoneId : String) (params : Json) :
    DispatchResult :=
  match (params.getKey "setting_id").asStr with
  | none => vErr "setting_update 缺少 setting_id 参数"
  | some settingId =>
    match params.getOpt "value" with
    | none => vErr "setting_update 缺少 value 参数"
    | some value =>
      okCall client (.updateZoneSetting zoneId settingId value)
        (fun _ => "设置 " ++ settingId ++ " 已更新为: " ++ value.render)

/-- The DNS request the executor builds from `params`. -/
def dnsRequestOfParams (params : Json) (t n c : String) : DnsRecordRequest :=
  { record_type := t
    name := n
    content := c
    ttl := ((params.getKey "ttl").asU64).map (· % 2 ^ 32)
    proxied := (params.getKey "proxied").asBool
    priority := ((params.getKey "priority").asU64).map (· % 2 ^ 16)
    comment := (params.getKey "comment").asStr
    tags := none }

/-- `execute_dns_create` (`executor.rs:208-242`). -/
def execute_dns_create (client : Client) (zoneId : String) (params : Json) :
    DispatchResult :=
  match (params.getKey "type").asStr with
  | none => vErr "dns_create 缺少 type 参数"
  | some t =>
    match (params.getKey "name").asStr with
    | none => vErr "dns_create 缺少 name 参数"
    | some n =>
      match (params.getKey "content").asStr with
      | none => vErr "dns_create 缺少 content 参数"
      | some c =>
        okCall client (.createDnsRecord zoneId (dnsRequestOfParams params t n c))
          (fun recId => "DNS 记录已创建: " ++ t ++ " " ++ n ++ " → " ++ c ++
            " (ID: " ++ recId.getD "" ++ ")")

/-- `execute_dns_update` (`executor.rs:244-280`). -/
def execute_dns_update (client : Client) (zoneId : String) (params : Json) :
    DispatchResult :=
  match (params.getKey "record_id").asStr with
  | none => vErr "dns_update 缺少 record_id 参数"
  | some recordId =>
    match (params.getKey "type").asStr with
    | none => vErr "dns_update 缺少 type 参数"
    | some t =>
      match (params.getKey "name").asStr with
      | none => vErr "dns_update 缺少 name 参数"
      | some n =>
        match (params.getKey "content").asStr with
        | none => vErr "dns_update 缺少 content 参数"
        | some c =>
          okCall client
            (.updateDnsRecord zoneId recordId (dnsRequestOfParams params t n c))
            (fun _ => "DNS 记录已更新: " ++ t ++ " " ++ n ++ " → " ++ c)

/-- `execute_dns_delete` (`executor.rs:282-293`). -/
def execute_dns_delete (client : Client) (zoneId : String) (params : Json) :
    DispatchResult :=
  match (params.getKey "record_id").asStr with
  | none => vErr "dns_delete 缺少 record_id 参数"
  | some recordId =>
    okCall client (.deleteDnsRecord zoneId recordId)
      (fun _ => "DNS 记录已删除: " ++ recordId)

/-- `execute_cache_purge` (`executor.rs:297-331`).  Note the source
defaults a missing (or non-string) `type` to `purge_all` via
`unwrap_or`. -/
def execute_cache_purge (client : Client) (zoneId : String) (params : Json) :
    DispatchResult :=
  let purgeType := ((params.getKey "type").asStr).getD "purge_all"
  if purgeType = "purge_all" then
    okCall client (.purgeAllCache zoneId) (fun _ => "已清除全部缓存")
  else if purgeType = "purge_urls" then
    match json_array_to_strings (params.getKey "urls") with
    | none => vErr "cache_purge purge_urls 缺少 urls 参数"
    | some urls =>
      okCall client (.purgeCacheByUrls zoneId urls)
        (fun _ => "已清除 " ++ toString urls.length ++ " 个 URL 的缓存")
  else if purgeType = "purge_tags" then
    match json_array_to_strings (params.getKey "tags") with
    | none => vErr "cache_purge purge_tags 缺少 tags 参数"
    | some tags =>
      okCall client (.purgeCacheByTags zoneId tags)
        (fun _ => "已清除 " ++ toString tags.length ++ " 个 Tag 的缓存")
  else if purgeType = "purge_hosts" then
    match json_array_to_strings (params.getKey "hosts") with
    | none => vErr "cache_purge purge_hosts 缺少 hosts 参数"
    | some hosts =>
      okCall client (.purgeCacheByHosts zoneId hosts)
        (fun _ => "已清除 " ++ toString hosts.length ++ " 个主机名的缓存")
  else vErr ("未知的缓存清除类型: " ++ purgeType)

/-- `execute_firewall_rule` (`executor.rs:335-386`). -/
def execute_firewall_rule (client : Client) (zoneId : String) (params : Json) :
    DispatchResult :=
  match (params.getKey "type").asStr with
  | none => vErr "firewall_rule 缺少 type 参数"
  | some ruleType =>
    if ruleType = "block_ip" then
      match (params.getKey "ip").asStr with
      | none => vErr "block_ip 缺少 ip 参数"
      | some ip =>
        okCall client (.blockIp zoneId ip ((params.getKey "note").asStr))
          (fun _ => "已封禁 IP: " ++ ip)
    else if ruleType = "whitelist_ip" then
      match (params.getKey "ip").asStr with
      | none => vErr "whitelist_ip 缺少 ip 参数"
      | some ip =>
        okCall client (.whitelistIp zoneId ip ((params.getKey "note").asStr))
          (fun _ => "已添加 IP 白名单: " ++ ip)
    else if ruleType = "security_level" then
      match (params.getKey "level").asStr with
      | none => vErr "security_level 缺少 level 参数"
      | some level =>
        okCall client (.setSecurityLevel zoneId level)
          (fun _ => "安全级别已设置为: " ++ level)
    else if ruleType = "under_attack" then
      match params_to_bool params "enable" with
      | .error e => vErr e
      | .ok enable =>
        okCall client (.setUnderAttackMode zoneId enable)
          (fun _ => "Under Attack 模式已" ++ (if enable then "开启" else "关闭"))
    else if ruleType = "browser_check" then
      match params_to_bool params "enable" with
      | .error e => vErr e
      | .ok enable =>
        okCall client (.setBrowserCheck zoneId enable)
          (fun _ => "浏览器完整性检查已" ++ (if enable then "开启" else "关闭"))
    else vErr ("未知的防火墙规则类型: " ++ ruleType)

/-- `execute_single_action` (`executor.rs:117-134`): string dispatch on
the action's kind token; an unrecognized token is an error without any
remote call. -/
def execute_single_action (client : Client) (zoneId : String)
    (action : SuggestedAction) : DispatchResult :=
  if action.action_type = "ssl_set" then
    execute_ssl_action client zoneId action.params
  else if action.action_type = "setting_update" then
    execute_setting_update client zoneId action.params
  else if action.action_type = "dns_create" then
    execute_dns_create client zoneId action.params
  else if action.action_type = "dns_update" then
    execute_dns_update client zoneId action.params
  else if action.action_type = "dns_delete" then
    execute_dns_delete client zoneId action.params
  else if action.action_type = "cache_purge" then
    execute_cache_purge client zoneId action.params
  else if action.action_type = "firewall_rule" then
    execute_firewall_rule client zoneId action.params
  else vErr ("未知的操作类型: " ++ action.action_type)

/-- Observable per-action result of a run: a success message, a failure
reason, or skipped — the latter models every action the loop never
dispatched (a declined high-risk step, everything after a declined
continuation, or the whole list after a declined batch prompt). -/
inductive Outcome where
  | success (msg : String) : Outcome
  | failed (err : String) : Outcome
  | skipped : Outcome

/-- The interactive confirmations of `execute_actions`, scripted per
action index (`dialoguer::Confirm`, one fresh prompt per question). -/
structure ConfirmOracle where
  batch : Bool
  high : Nat → Bool
  cont : Nat → Bool

/-- Running state of the execution loop: outcomes so far (in order),
the two counters of the source, and the remote calls issued so far. -/
structure ExecState where
  outcomes : List Outcome
  succ : Nat
  fail : Nat
  calls : List RemoteCall

/-- The loop body of `execute_actions` (`executor.rs:56-102`): per-action
high-risk gate, dispatch, and the post-failure continuation prompt
(asked only when a later action remains; declining it breaks the loop,
leaving the remaining actions undispatched/skipped). -/
def runLoop (client : Client) (zoneId : String) (oracle : ConfirmOracle)
    (total : Nat) : List SuggestedAction → Nat → ExecState → ExecState
  | [], _, st => st
  | a :: rest, i, st =>
    if a.risk = "high" ∧ oracle.high i = false then
      runLoop client zoneId oracle total rest (i + 1)
        { st with outcomes := st.outcomes ++ [.skipped] }
    else
      match execute_single_action client zoneId a with
      | (cs, .ok msg) =>
        runLoop client zoneId oracle total rest (i + 1)
          { outcomes := st.outcomes ++ [.success msg]
            succ := st.succ + 1
            fail := st.fail
            calls := st.calls ++ cs }
      | (cs, .error e) =>
        let st' : ExecState :=
          { outcomes := st.outcomes ++ [.failed e]
            succ := st.succ
            fail := st.fail + 1
            calls := st.calls ++ cs }
        if i + 1 < total then
          if oracle.cont i then
            runLoop client zoneId oracle total rest (i + 1) st'
          else
            { st' with
                outcomes := st'.outcomes ++ List.replicate rest.length .skipped }
        else
          runLoop client zoneId oracle total rest (i + 1) st'

/-- Aggregate result of one `execute_actions` run: ordered outcomes, the
success/failure counters and total reported by the source's summary
line, and the full trace of remote calls. -/
structure ExecutionReport where
  outcomes : List Outcome
  succeeded : Nat
  failed : Nat
  total : Nat
  calls : List RemoteCall

/-- `execute_actions` (`executor.rs:11-114`): an empty list returns at
once; otherwise the batch prompt gates the whole run (a decline makes no
remote call and leaves every action skipped), then the loop runs from
index 0. -/
def execute_actions (client : Client) (zoneId : String) (oracle : ConfirmOracle)
    (actions : List SuggestedAction) : ExecutionReport :=
  if actions.isEmpty then ⟨[], 0, 0, 0, []⟩
  else if oracle.batch = false then
    ⟨List.replicate actions.length .skipped, 0, 0, actions.length, []⟩
  else
    let st := runLoop client zoneId oracle actions.length actions 0 ⟨[], 0, 0, []⟩
    ⟨st.outcomes, st.succ, st.fail, actions.length, st.calls⟩

/-! ### Helper lemmas -/

theorem getKey_of_not_hasKey {j : Json} {k : String} (h : j.hasKey k = false) :
    j.getKey k = .null := by
  cases j <;> try rfl
  case obj fields =>
    cases hf : (fields.filter (fun p => p.1 = k)).getLast? with
    | none => simp [Json.getKey, hf]
    | some p => simp [Json.hasKey, Json.getOpt, hf] at h

theorem asStr_null : Json.asStr .null = none := rfl

theorem asBool_null : Json.asBool .null = none := rfl

/-- Fixed sample data used by concrete witnesses. -/
def okClient : Client := fun _ => .ok none

/-- A client whose DNS-create calls return a record id. -/
def idClient : Client := fun c =>
  match c with
  | .createDnsRecord _ _ => .ok (some "rec1")
  | _ => .ok none

/-- An oracle that confirms everything. -/
def yesOracle : ConfirmOracle := ⟨true, fun _ => true, fun _ => true⟩

/-- An oracle that declines the batch prompt. -/
def noBatchOracle : ConfirmOracle := ⟨false, fun _ => true, fun _ => true⟩

/-- A sample low-risk action. -/
def actPurge : SuggestedAction :=
  ⟨"cache_purge", "purge all cache", Json.obj [("type", Json.str "purge_all")], "low"⟩

/-- A sample low-risk DNS delete. -/
def actDelete : SuggestedAction :=
  ⟨"dns_delete", "delete record", Json.obj [("record_id", Json.str "r9")], "low"⟩

/-! ### C1 — declined batch confirmation -/

/-- C1: for every non-empty action list, when the batch-level
confirmation is declined the executor makes zero remote calls and the
run ends with every action's Outcome skipped and a succeeded count
of 0. -/
theorem execute_actions_batch_declined (client : Client) (zoneId : String)
    (oracle : ConfirmOracle) (actions : List SuggestedAction)
    (hne : actions ≠ []) (hdecl : oracle.batch = false) :
    (execute_actions client zoneId oracle actions).calls = [] ∧
    (execute_actions client zoneId oracle actions).outcomes =
      List.replicate actions.length Outcome.skipped ∧
    (execute_actions client zoneId oracle actions).succeeded = 0 := by
  have hni : actions.isEmpty = false := by
    simpa [List.isEmpty_iff] using hne
  unfold execute_actions
  simp [hni, hdecl]

/-- C1 witness: a concrete two-action plan with the batch prompt
declined. -/
theorem execute_actions_batch_declined_witness :
    (execute_actions okClient "z1" noBatchOracle [actPurge, actDelete]).calls = [] ∧
    (execute_actions okClient "z1" noBatchOracle [actPurge, actDelete]).outcomes =
      List.replicate 2 Outcome.skipped ∧
    (execute_actions okClient "z1" noBatchOracle [actPurge, actDelete]).succeeded = 0 :=
  execute_actions_batch_declined okClient "z1" noBatchOracle [actPurge, actDelete]
    (List.cons_ne_nil _ _) rfl

/-! ### C8 — boolean-ish `enable` parameter -/

/-- C8: `params_to_bool` takes a literal JSON boolean as-is, maps the
string tokens true/on/yes/1 (any ASCII letter case, via lowercasing) to
`true` and false/off/no/0 to `false`, and defaults an absent key to
`true`; in particular an `ssl_set` action for `always_https` (the spec's
TlsSettingChange / force-https) with no `enable` key dispatches with
`enable = true`. -/
theorem params_to_bool_spec (params : Json) (key : String) :
    (∀ b, params.getKey key = Json.bool b → params_to_bool params key = .ok b) ∧
    (∀ s, params.getKey key = Json.str s →
      ((toLowerStr s = "true" ∨ toLowerStr s = "on" ∨ toLowerStr s = "yes" ∨
          toLowerStr s = "1") → params_to_bool params key = .ok true) ∧
      ((toLowerStr s = "false" ∨ toLowerStr s = "off" ∨ toLowerStr s = "no" ∨
          toLowerStr s = "0") → params_to_bool params key = .ok false)) ∧
    (params.hasKey key = false → params_to_bool params key = .ok true) ∧
    (∀ (client : Client) (zoneId : String),
      (params.getKey "setting").asStr = some "always_https" →
      params.hasKey "enable" = false →
      execute_ssl_action client zoneId params =
        ([RemoteCall.setAlwaysHttps zoneId true],
          (client (RemoteCall.setAlwaysHttps zoneId true)).map
            (fun _ => "Always HTTPS 已开启"))) := by
  refine ⟨?_, ?_, ?_, ?_⟩
  · intro b hb
    simp [params_to_bool, hb, Json.asBool]
  · intro s hs
    constructor <;> intro h <;>
      rcases h with h | h | h | h <;>
        simp [params_to_bool, hs, Json.asBool, Json.asStr, h]
  · intro h
    have hk := getKey_of_not_hasKey h
    simp [params_to_bool, hk, Json.asBool, Json.asStr]
  · intro client zoneId hset hen
    have hk := getKey_of_not_hasKey hen
    have hb : params_to_bool params "enable" = .ok true := by
      simp [params_to_bool, hk, Json.asBool, Json.asStr]
    simp [execute_ssl_action, hset, hb, okCall]

/-- C8 witness: concrete parameter maps exercising the boolean literal,
the case-insensitive string tokens, the absent-key default, and the
`always_https` dispatch with `enable` absent. -/
theorem params_to_bool_spec_witness :
    params_to_bool (Json.obj [("enable", Json.bool false)]) "enable" = .ok false ∧
    params_to_bool (Json.obj [("enable", Json.str "YeS")]) "enable" = .ok true ∧
    params_to_bool (Json.obj [("enable", Json.str "Off")]) "enable" = .ok false ∧
    params_to_bool (Json.obj []) "enable" = .ok true ∧
    execute_ssl_action okClient "z1"
        (Json.obj [("setting", Json.str "always_https")]) =
      ([RemoteCall.setAlwaysHttps "z1" true],
        Except.ok "Always HTTPS 已开启") := by
  refine ⟨?_, ?_, ?_, ?_, ?_⟩
  · exact (params_to_bool_spec (Json.obj [("enable", Json.bool false)]) "enable").1
      false (by rfl)
  · exact ((params_to_bool_spec (Json.obj [("enable", Json.str "YeS")]) "enable").2.1
      "YeS" (by rfl)).1 (by simp [toLowerStr])
  · exact ((params_to_bool_spec (Json.obj [("enable", Json.str "Off")]) "enable").2.1
      "Off" (by rfl)).2 (by right; left; simp [toLowerStr])
  · exact (params_to_bool_spec (Json.obj []) "enable").2.2.1 (by rfl)
  · exact (params_to_bool_spec (Json.obj [("setting", Json.str "always_https")])
      "enable").2.2.2 okClient "z1" (by rfl) (by rfl)

/-! ### C10 — non-boolean, non-string `enable` values default to true -/

/-- C10: when the `enable` value is neither a JSON boolean nor a string
(number, null, array, object), `params_to_bool` falls through to the
default and returns `true`; an error arises only from a string value
outside the recognized tokens. -/
theorem params_to_bool_default_on_other_shapes (params : Json) (key : String) :
    ((params.getKey key).asBool = none → (params.getKey key).asStr = none →
      params_to_bool params key = .ok true) ∧
    (∀ e, params_to_bool params key = .error e →
      ∃ s, (params.getKey key).asStr = some s ∧
        toLowerStr s ≠ "true" ∧ toLowerStr s ≠ "on" ∧ toLowerStr s ≠ "yes" ∧
        toLowerStr s ≠ "1" ∧ toLowerStr s ≠ "false" ∧ toLowerStr s ≠ "off" ∧
        toLowerStr s ≠ "no" ∧ toLowerStr s ≠ "0") := by
  constructor
  · intro hb hs
    simp [params_to_bool, hb, hs]
  · intro e he
    unfold params_to_bool at he
    cases hb : (params.getKey key).asBool with
    | some b => simp [hb] at he
    | none =>
      cases hs : (params.getKey key).asStr with
      | none => simp [hb, hs] at he
      | some s =>
        refine ⟨s, rfl, ?_⟩
        simp only [hb, hs] at he
        by_cases h1 : toLowerStr s = "true" ∨ toLowerStr s = "on" ∨
            toLowerStr s = "yes" ∨ toLowerStr s = "1"
        · simp [h1] at he
        · by_cases h2 : toLowerStr s = "false" ∨ toLowerStr s = "off" ∨
              toLowerStr s = "no" ∨ toLowerStr s = "0"
          · simp [h1, h2] at he
          · push_neg at h1 h2
            exact ⟨h1.1, h1.2.1, h1.2.2.1, h1.2.2.2, h2.1, h2.2.1, h2.2.2.1, h2.2.2.2⟩

/-- C10 witness: an `enable` key present as the number `5` and as `null`
both yield `true`. -/
theorem params_to_bool_default_on_other_shapes_witness :
    params_to_bool (Json.obj [("enable", Json.num "5")]) "enable" = .ok true ∧
    params_to_bool (Json.obj [("enable", Json.null)]) "enable" = .ok true ∧
    params_to_bool (Json.obj [("enable", Json.arr [Json.bool true])]) "enable" =
      .ok true := by
  refine ⟨?_, ?_, ?_⟩
  · exact (params_to_bool_default_on_other_shapes
      (Json.obj [("enable", Json.num "5")]) "enable").1 (by rfl) (by rfl)
  · exact (params_to_bool_default_on_other_shapes
      (Json.obj [("enable", Json.null)]) "enable").1 (by rfl) (by rfl)
  · exact (params_to_bool_default_on_other_shapes
      (Json.obj [("enable", Json.arr [Json.bool true])]) "enable").1 (by rfl) (by rfl)

/-! ### C5 — CachePurge without a `type` parameter -/

/-- A `cache_purge` action whose parameters have no `type` key. -/
def actPurgeNoType : SuggestedAction :=
  ⟨"cache_purge", "purge cache", Json.obj [], "low"⟩

/-- C5 counterexample: for a CachePurge action with no `type` parameter
the claim demands a failed Outcome and no remote operation, but
dispatching it issues the purge-all remote call and (with a succeeding
client) produces a success message: `unwrap_or("purge_all")` at
`executor.rs:302-304` defaults the missing key instead of failing. -/
theorem cache_purge_missing_type_counterexample :
    execute_single_action okClient "z1" actPurgeNoType =
      ([RemoteCall.purgeAllCache "z1"], .ok "已清除全部缓存") := by
  rfl

/-- C5 amended: for every CachePurge action whose parameters lack the
`type` key (or carry it as a non-string), dispatch defaults the purge
type to purge-all and performs the purge-all remote operation; the
Outcome is the remote call's result, not a validation failure. -/
theorem cache_purge_missing_type_defaults (client : Client) (zoneId : String)
    (params : Json) (h : (params.getKey "type").asStr = none) :
    execute_cache_purge client zoneId params =
      ([RemoteCall.purgeAllCache zoneId],
        (client (RemoteCall.purgeAllCache zoneId)).map (fun _ => "已清除全部缓存")) ∧
    ∀ d r, execute_single_action client zoneId ⟨"cache_purge", d, params, r⟩ =
      execute_cache_purge client zoneId params := by
  constructor
  · simp [execute_cache_purge, h, okCall]
  · intro d r
    rfl

/-- C5 amended witness: the concrete no-`type` purge action dispatched
against a failing client still issues the purge-all call and reports the
remote failure. -/
theorem cache_purge_missing_type_defaults_witness :
    execute_cache_purge okClient "z1" (Json.obj []) =
      ([RemoteCall.purgeAllCache "z1"], .ok "已清除全部缓存") ∧
    execute_single_action okClient "z1" ⟨"cache_purge", "p", Json.obj [], "low"⟩ =
      execute_cache_purge okClient "z1" (Json.obj []) := by
  have h := cache_purge_missing_type_defaults okClient "z1" (Json.obj []) (by rfl)
  exact ⟨h.1, h.2 "p" "low"⟩

/-! ### C2 — unknown kinds and missing required parameters -/

theorem getOpt_of_not_hasKey {j : Json} {k : String} (h : j.hasKey k = false) :
    j.getOpt k = none := by
  cases hg : j.getOpt k with
  | none => rfl
  | some v => rw [Json.hasKey, hg] at h; simp at h

theorem asStr_getKey_of_not_hasKey {j : Json} {k : String}
    (h : j.hasKey k = false) : (j.getKey k).asStr = none := by
  rw [getKey_of_not_hasKey h]; rfl

/-- The seven kind tokens recognized by `execute_single_action`. -/
def knownActionTypes : List String :=
  ["ssl_set", "setting_update", "dns_create", "dns_update", "dns_delete",
   "cache_purge", "firewall_rule"]

/-- Whether the key is absent from the parameters. -/
def lacksKey (p : Json) (k : String) : Bool :=
  !(p.hasKey k)

/-- A recognized action lacking a parameter key its dispatcher requires
(the spec's §4.2 table restricted to the keys the code actually
requires; CachePurge's `type` is excluded because the code defaults it —
see the C5 counterexample). -/
def lacksRequiredKey (a : SuggestedAction) : Bool :=
  let p := a.params
  if a.action_type = "ssl_set" then
    lacksKey p "setting" ||
      (((p.getKey "setting").asStr == some "ssl_mode" ||
        (p.getKey "setting").asStr == some "min_tls_version") && lacksKey p "value")
  else if a.action_type = "setting_update" then
    lacksKey p "setting_id" || lacksKey p "value"
  else if a.action_type = "dns_create" then
    lacksKey p "type" || lacksKey p "name" || lacksKey p "content"
  else if a.action_type = "dns_update" then
    lacksKey p "record_id" || lacksKey p "type" || lacksKey p "name" ||
      lacksKey p "content"
  else if a.action_type = "dns_delete" then
    lacksKey p "record_id"
  else if a.action_type = "cache_purge" then
    ((p.getKey "type").asStr == some "purge_urls" && lacksKey p "urls") ||
    ((p.getKey "type").asStr == some "purge_tags" && lacksKey p "tags") ||
    ((p.getKey "type").asStr == some "purge_hosts" && lacksKey p "hosts")
  else if a.action_type = "firewall_rule" then
    lacksKey p "type" ||
    ((p.getKey "type").asStr == some "block_ip" && lacksKey p "ip") ||
    ((p.getKey "type").asStr == some "whitelist_ip" && lacksKey p "ip") ||
    ((p.getKey "type").asStr == some "security_level" && lacksKey p "level")
  else false

theorem execute_ssl_action_missing (client : Client) (zoneId : String) (p : Json)
    (h : p.hasKey "setting" = false ∨
      (((p.getKey "setting").asStr = some "ssl_mode" ∨
        (p.getKey "setting").asStr = some "min_tls_version") ∧
        p.hasKey "value" = false)) :
    ∃ e, execute_ssl_action client zoneId p = vErr e := by
  rcases h with h | ⟨hs, hv⟩
  · exact ⟨_, by simp [execute_ssl_action, asStr_getKey_of_not_hasKey h]; try rfl⟩
  · have hvn := asStr_getKey_of_not_hasKey hv
    rcases hs with hs | hs
    · exact ⟨_, by simp [execute_ssl_action, hs, hvn]; try rfl⟩
    · exact ⟨_, by simp [execute_ssl_action, hs, hvn]; try rfl⟩

theorem execute_setting_update_missing (client : Client) (zoneId : String)
    (p : Json)
    (h : p.hasKey "setting_id" = false ∨ p.hasKey "value" = false) :
    ∃ e, execute_setting_update client zoneId p = vErr e := by
  rcases h with h | h
  · exact ⟨_, by simp [execute_setting_update, asStr_getKey_of_not_hasKey h]; try rfl⟩
  · have hv := getOpt_of_not_hasKey h
    cases hs : (p.getKey "setting_id").asStr with
    | none => exact ⟨_, by simp [execute_setting_update, hs]; try rfl⟩
    | some sid => exact ⟨_, by simp [execute_setting_update, hs, hv]; try rfl⟩

theorem execute_dns_create_missing (client : Client) (zoneId : String) (p : Json)
    (h : p.hasKey "type" = false ∨ p.hasKey "name" = false ∨
      p.hasKey "content" = false) :
    ∃ e, execute_dns_create client zoneId p = vErr e := by
  rcases h with h | h | h
  · exact ⟨_, by simp [execute_dns_create, asStr_getKey_of_not_hasKey h]; try rfl⟩
  · have hn := asStr_getKey_of_not_hasKey h
    cases ht : (p.getKey "type").asStr with
    | none => exact ⟨_, by simp [execute_dns_create, ht]; try rfl⟩
    | some t => exact ⟨_, by simp [execute_dns_create, ht, hn]; try rfl⟩
  · have hc := asStr_getKey_of_not_hasKey h
    cases ht : (p.getKey "type").asStr with
    | none => exact ⟨_, by simp [execute_dns_create, ht]; try rfl⟩
    | some t =>
      cases hn : (p.getKey "name").asStr with
      | none => exact ⟨_, by simp [execute_dns_create, ht, hn]; try rfl⟩
      | some n => exact ⟨_, by simp [execute_dns_create, ht, hn, hc]; try rfl⟩

theorem execute_dns_update_missing (client : Client) (zoneId : String) (p : Json)
    (h : p.hasKey "record_id" = false ∨ p.hasKey "type" = false ∨
      p.hasKey "name" = false ∨ p.hasKey "content" = false) :
    ∃ e, execute_dns_update client zoneId p = vErr e := by
  rcases h with h | h | h | h
  · exact ⟨_, by simp [execute_dns_update, asStr_getKey_of_not_hasKey h]; try rfl⟩
  · have ht := asStr_getKey_of_not_hasKey h
    cases hr : (p.getKey "record_id").asStr with
    | none => exact ⟨_, by simp [execute_dns_update, hr]; try rfl⟩
    | some rid => exact ⟨_, by simp [execute_dns_update, hr, ht]; try rfl⟩
  · have hn := asStr_getKey_of_not_hasKey h
    cases hr : (p.getKey "record_id").asStr with
    | none => exact ⟨_, by simp [execute_dns_update, hr]; try rfl⟩
    | some rid =>
      cases ht : (p.getKey "type").asStr with
      | none => exact ⟨_, by simp [execute_dns_update, hr, ht]; try rfl⟩
      | some t => exact ⟨_, by simp [execute_dns_update, hr, ht, hn]; try rfl⟩
  · have hc := asStr_getKey_of_not_hasKey h
    cases hr : (p.getKey "record_id").asStr with
    | none => exact ⟨_, by simp [execute_dns_update, hr]; try rfl⟩
    | some rid =>
      cases ht : (p.getKey "type").asStr with
      | none => exact ⟨_, by simp [execute_dns_update, hr, ht]; try rfl⟩
      | some t =>
        cases hn : (p.getKey "name").asStr with
        | none => exact ⟨_, by simp [execute_dns_update, hr, ht, hn]; try rfl⟩
        | some n => exact ⟨_, by simp [execute_dns_update, hr, ht, hn, hc]; try rfl⟩

theorem execute_dns_delete_missing (client : Client) (zoneId : String) (p : Json)
    (h : p.hasKey "record_id" = false) :
    ∃ e, execute_dns_delete client zoneId p = vErr e :=
  ⟨_, by simp [execute_dns_delete, asStr_getKey_of_not_hasKey h]; try rfl⟩

theorem execute_cache_purge_missing (client : Client) (zoneId : String) (p : Json)
    (h : ((p.getKey "type").asStr = some "purge_urls" ∧ p.hasKey "urls" = false) ∨
      ((p.getKey "type").asStr = some "purge_tags" ∧ p.hasKey "tags" = false) ∨
      ((p.getKey "type").asStr = some "purge_hosts" ∧ p.hasKey "hosts" = false)) :
    ∃ e, execute_cache_purge client zoneId p = vErr e := by
  rcases h with ⟨ht, hk⟩ | ⟨ht, hk⟩ | ⟨ht, hk⟩ <;>
    · have hn := getKey_of_not_hasKey hk
      exact ⟨_, by simp [execute_cache_purge, ht, hn, json_array_to_strings]; try rfl⟩

theorem execute_firewall_rule_missing (client : Client) (zoneId : String)
    (p : Json)
    (h : p.hasKey "type" = false ∨
      ((p.getKey "type").asStr = some "block_ip" ∧ p.hasKey "ip" = false) ∨
      ((p.getKey "type").asStr = some "whitelist_ip" ∧ p.hasKey "ip" = false) ∨
      ((p.getKey "type").asStr = some "security_level" ∧
        p.hasKey "level" = false)) :
    ∃ e, execute_firewall_rule client zoneId p = vErr e := by
  rcases h with h | ⟨ht, hk⟩ | ⟨ht, hk⟩ | ⟨ht, hk⟩
  · exact ⟨_, by simp [execute_firewall_rule, asStr_getKey_of_not_hasKey h]; try rfl⟩
  · exact ⟨_, by simp [execute_firewall_rule, ht, asStr_getKey_of_not_hasKey hk]; try rfl⟩
  · exact ⟨_, by simp [execute_firewall_rule, ht, asStr_getKey_of_not_hasKey hk]; try rfl⟩
  · exact ⟨_, by simp [execute_firewall_rule, ht, asStr_getKey_of_not_hasKey hk]; try rfl⟩

/-- The loop always produces exactly one outcome per remaining action:
no branch aborts the run. -/
theorem runLoop_outcomes_length (client : Client) (zoneId : String)
    (oracle : ConfirmOracle) (total : Nat) :
    ∀ (L : List SuggestedAction) (i : Nat) (st : ExecState),
      (runLoop client zoneId oracle total L i st).outcomes.length =
        st.outcomes.length + L.length := by
  intro L
  induction L with
  | nil => intro i st; rfl
  | cons a rest ih =>
    intro i st
    rw [runLoop]
    by_cases hr : a.risk = "high" ∧ oracle.high i = false
    · rw [if_pos hr, ih]
      simp
      try omega
    · rw [if_neg hr]
      cases hd : execute_single_action client zoneId a with
      | mk cs r =>
        cases r with
        | ok msg =>
          simp only [ih]
          simp
          try omega
        | error e =>
          by_cases hi : i + 1 < total
          · by_cases hc : oracle.cont i = true
            · simp only [hi, hc, if_true, ih]
              simp
              try omega
            · simp only [hi, hc, if_true, if_false, ih]
              simp
              try omega
          · simp only [hi, if_false, ih]
            simp
            try omega

/-- The report covers every input action, whatever happens. -/
theorem execute_actions_outcomes_length (client : Client) (zoneId : String)
    (oracle : ConfirmOracle) (actions : List SuggestedAction) :
    (execute_actions client zoneId oracle actions).outcomes.length =
      actions.length := by
  unfold execute_actions
  by_cases he : actions.isEmpty
  · rw [if_pos he]
    simp [List.isEmpty_iff.mp he]
  · rw [if_neg he]
    by_cases hb : oracle.batch = false
    · rw [if_pos hb]
      simp
    · rw [if_neg hb]
      simpa using runLoop_outcomes_length client zoneId oracle actions.length
        actions 0 ⟨[], 0, 0, []⟩

/-- C2 counterexample: a CachePurge action lacking its required `type`
parameter (per the spec's dispatch table) is inside the claim's scope,
yet dispatching it issues the purge-all remote call and succeeds instead
of recording a failed Outcome with no remote call. -/
theorem dispatch_missing_key_counterexample :
    execute_single_action okClient "z1"
        ⟨"cache_purge", "purge", Json.obj [("note", Json.str "x")], "low"⟩ =
      ([RemoteCall.purgeAllCache "z1"], .ok "已清除全部缓存") := by
  rfl

/-- C2 amended: for every action whose kind token is not one of the
seven recognized kinds, or which lacks a parameter key its dispatcher
requires — the spec's table minus CachePurge's `type`, which the code
defaults to purge-all — dispatch makes no remote call and yields a
failure reason (recorded by the loop as a failed Outcome); and no action
ever aborts the run: the report always carries one Outcome per input
action. -/
theorem dispatch_validation_failure (client : Client) (zoneId : String)
    (a : SuggestedAction)
    (h : a.action_type ∉ knownActionTypes ∨ lacksRequiredKey a = true) :
    ((execute_single_action client zoneId a).1 = [] ∧
      ∃ e, (execute_single_action client zoneId a).2 = .error e) ∧
    ∀ (oracle : ConfirmOracle) (actions : List SuggestedAction),
      (execute_actions client zoneId oracle actions).outcomes.length =
        actions.length := by
  refine ⟨?_, fun oracle actions =>
    execute_actions_outcomes_length client zoneId oracle actions⟩
  have main : ∃ e, execute_single_action client zoneId a = vErr e := by
    by_cases h1 : a.action_type = "ssl_set"
    · rcases h with h | h
      · exact absurd (by rw [h1]; simp [knownActionTypes]) h
      · simp only [lacksRequiredKey] at h
        rw [h1] at h
        simp [lacksKey] at h
        obtain ⟨e, he⟩ := execute_ssl_action_missing client zoneId a.params (by tauto)
        exact ⟨e, by simp [execute_single_action, h1, he]⟩
    · by_cases h2 : a.action_type = "setting_update"
      · rcases h with h | h
        · exact absurd (by rw [h2]; simp [knownActionTypes]) h
        · simp only [lacksRequiredKey] at h
          rw [h2] at h
          simp [lacksKey] at h
          obtain ⟨e, he⟩ := execute_setting_update_missing client zoneId a.params (by tauto)
          exact ⟨e, by simp [execute_single_action, h1, h2, he]⟩
      · by_cases h3 : a.action_type = "dns_create"
        · rcases h with h | h
          · exact absurd (by rw [h3]; simp [knownActionTypes]) h
          · simp only [lacksRequiredKey] at h
            rw [h3] at h
            simp [lacksKey] at h
            obtain ⟨e, he⟩ := execute_dns_create_missing client zoneId a.params (by tauto)
            exact ⟨e, by simp [execute_single_action, h1, h2, h3, he]⟩
        · by_cases h4 : a.action_type = "dns_update"
          · rcases h with h | h
            · exact absurd (by rw [h4]; simp [knownActionTypes]) h
            · simp only [lacksRequiredKey] at h
              rw [h4] at h
              simp [lacksKey] at h
              obtain ⟨e, he⟩ := execute_dns_update_missing client zoneId a.params (by tauto)
              exact ⟨e, by simp [execute_single_action, h1, h2, h3, h4, he]⟩
          · by_cases h5 : a.action_type = "dns_delete"
            · rcases h with h | h
              · exact absurd (by rw [h5]; simp [knownActionTypes]) h
              · simp only [lacksRequiredKey] at h
                rw [h5] at h
                simp [lacksKey] at h
                obtain ⟨e, he⟩ := execute_dns_delete_missing client zoneId a.params (by tauto)
                exact ⟨e, by simp [execute_single_action, h1, h2, h3, h4, h5, he]⟩
            · by_cases h6 : a.action_type = "cache_purge"
              · rcases h with h | h
                · exact absurd (by rw [h6]; simp [knownActionTypes]) h
                · simp only [lacksRequiredKey] at h
                  rw [h6] at h
                  simp [lacksKey] at h
                  obtain ⟨e, he⟩ := execute_cache_purge_missing client zoneId a.params (by tauto)
                  exact ⟨e, by simp [execute_single_action, h1, h2, h3, h4, h5, h6, he]⟩
              · by_cases h7 : a.action_type = "firewall_rule"
                · rcases h with h | h
                  · exact absurd (by rw [h7]; simp [knownActionTypes]) h
                  · simp only [lacksRequiredKey] at h
                    rw [h7] at h
                    simp [lacksKey] at h
                    obtain ⟨e, he⟩ := execute_firewall_rule_missing client zoneId a.params (by tauto)
                    exact ⟨e, by simp [execute_single_action, h1, h2, h3, h4, h5, h6, h7, he]⟩
                · refine ⟨"未知的操作类型: " ++ a.action_type, ?_⟩
                  simp [execute_single_action, h1, h2, h3, h4, h5, h6, h7, vErr]
  obtain ⟨e, he⟩ := main
  exact ⟨by rw [he]; rfl, e, by rw [he]; rfl⟩

/-- C2 witness: an unrecognized kind and the spec's scenario B (a
firewall `block_ip` with no `ip`) both yield a validation failure with
no remote call, and a run over both still reports one Outcome per
action. -/
theorem dispatch_validation_failure_witness :
    ((execute_single_action okClient "z1"
        ⟨"teleport", "beam", Json.obj [], "low"⟩).1 = [] ∧
      ∃ e, (execute_single_action okClient "z1"
        ⟨"teleport", "beam", Json.obj [], "low"⟩).2 = .error e) ∧
    ((execute_single_action okClient "z1"
        ⟨"firewall_rule", "block attacker",
          Json.obj [("type", Json.str "block_ip")], "medium"⟩).1 = [] ∧
      ∃ e, (execute_single_action okClient "z1"
        ⟨"firewall_rule", "block attacker",
          Json.obj [("type", Json.str "block_ip")], "medium"⟩).2 = .error e) ∧
    (execute_actions okClient "z1" yesOracle
        [⟨"teleport", "beam", Json.obj [], "low"⟩]).outcomes.length = 1 := by
  refine ⟨?_, ?_, ?_⟩
  · exact (dispatch_validation_failure okClient "z1"
      ⟨"teleport", "beam", Json.obj [], "low"⟩ (.inl (by decide))).1
  · exact (dispatch_validation_failure okClient "z1"
      ⟨"firewall_rule", "block attacker",
        Json.obj [("type", Json.str "block_ip")], "medium"⟩ (.inr (by rfl))).1
  · exact (dispatch_validation_failure okClient "z1"
      ⟨"teleport", "beam", Json.obj [], "low"⟩ (.inl (by decide))).2
      yesOracle [⟨"teleport", "beam", Json.obj [], "low"⟩]

/-! ### Run-loop structure lemmas (for C3 and C4) -/

/-- The success message an action's dispatch produces (meaningful when
the dispatch succeeds). -/
def okMsgOf (client : Client) (zoneId : String) (a : SuggestedAction) : String :=
  match (execute_single_action client zoneId a).2 with
  | .ok m => m
  | .error _ => ""

/-- Advance the loop state over one successfully dispatched action. -/
def pushOk (client : Client) (zoneId : String) (st : ExecState)
    (a : SuggestedAction) : ExecState :=
  { outcomes := st.outcomes ++ [.success (okMsgOf client zoneId a)]
    succ := st.succ + 1
    fail := st.fail
    calls := st.calls ++ (execute_single_action client zoneId a).1 }

/-- Advance the loop state over a list of successfully dispatched
actions. -/
def pushAll (client : Client) (zoneId : String) (st : ExecState)
    (pre : List SuggestedAction) : ExecState :=
  pre.foldl (pushOk client zoneId) st

/-- The success outcomes of a list of actions. -/
def successOutcomes (client : Client) (zoneId : String)
    (pre : List SuggestedAction) : List Outcome :=
  pre.map (fun a => Outcome.success (okMsgOf client zoneId a))

/-- The remote calls issued when dispatching a list of actions in
order. -/
def callsOf (client : Client) (zoneId : String) :
    List SuggestedAction → List RemoteCall
  | [] => []
  | a :: rest => (execute_single_action client zoneId a).1 ++ callsOf client zoneId rest

theorem pushAll_spec (client : Client) (zoneId : String) :
    ∀ (pre : List SuggestedAction) (st : ExecState),
      pushAll client zoneId st pre =
        { outcomes := st.outcomes ++ successOutcomes client zoneId pre
          succ := st.succ + pre.length
          fail := st.fail
          calls := st.calls ++ callsOf client zoneId pre } := by
  intro pre
  induction pre with
  | nil =>
    intro st
    cases st
    simp [pushAll, successOutcomes, callsOf]
  | cons a pre' ih =>
    intro st
    have : pushAll client zoneId st (a :: pre') =
        pushAll client zoneId (pushOk client zoneId st a) pre' := rfl
    rw [this, ih]
    simp [pushOk, successOutcomes, callsOf]
    omega

/-- One loop step over an action that passes its high-risk gate and
dispatches successfully. -/
theorem runLoop_cons_success (client : Client) (zoneId : String)
    (oracle : ConfirmOracle) (total : Nat) (a : SuggestedAction)
    (rest : List SuggestedAction) (i : Nat) (st : ExecState)
    (hp : a.risk = "high" → oracle.high i = true)
    (hok : ∃ msg, (execute_single_action client zoneId a).2 = .ok msg) :
    runLoop client zoneId oracle total (a :: rest) i st =
      runLoop client zoneId oracle total rest (i + 1)
        (pushOk client zoneId st a) := by
  obtain ⟨msg, hmsg⟩ := hok
  rw [runLoop]
  have hguard : ¬(a.risk = "high" ∧ oracle.high i = false) := by
    rintro ⟨hr, hh⟩
    rw [hp hr] at hh
    exact Bool.noConfusion hh
  rw [if_neg hguard]
  cases hd : execute_single_action client zoneId a with
  | mk cs r =>
    rw [hd] at hmsg
    simp only at hmsg
    cases r with
    | ok m =>
      simp [pushOk, okMsgOf, hd]
    | error e => exact absurd hmsg (by simp)

/-- The loop over a prefix of passing, successfully dispatched actions
reduces to the loop over the remainder from the advanced state. -/
theorem runLoop_append_success (client : Client) (zoneId : String)
    (oracle : ConfirmOracle) (total : Nat) :
    ∀ (pre rest : List SuggestedAction) (i : Nat) (st : ExecState),
      (∀ j (hj : j < pre.length),
        ((pre.get ⟨j, hj⟩).risk = "high" → oracle.high (i + j) = true) ∧
        ∃ msg, (execute_single_action client zoneId (pre.get ⟨j, hj⟩)).2 = .ok msg) →
      runLoop client zoneId oracle total (pre ++ rest) i st =
        runLoop client zoneId oracle total rest (i + pre.length)
          (pushAll client zoneId st pre) := by
  intro pre
  induction pre with
  | nil =>
    intro rest i st _
    simp [pushAll]
  | cons a pre' ih =>
    intro rest i st h
    have h0 := h 0 (by simp)
    simp only [List.get] at h0
    rw [List.cons_append,
      runLoop_cons_success client zoneId oracle total a (pre' ++ rest) i st
        (by simpa using h0.1) (by simpa using h0.2)]
    rw [ih rest (i + 1) (pushOk client zoneId st a) ?_]
    · have harith : i + 1 + pre'.length = i + (pre'.length + 1) := by omega
      rw [harith]
      rfl
    · intro j hj
      have hjs := h (j + 1) (by simpa using Nat.succ_lt_succ hj)
      have harith : i + (j + 1) = i + 1 + j := by omega
      rw [harith] at hjs
      simpa using hjs

/-- One loop step over an action that fails to dispatch, when a later
action remains and the continuation prompt is declined: the loop breaks,
recording the failure and marking the whole remainder skipped. -/
theorem runLoop_fail_break (client : Client) (zoneId : String)
    (oracle : ConfirmOracle) (total : Nat) (ak : SuggestedAction)
    (post : List SuggestedAction) (i : Nat) (st : ExecState)
    (cs : List RemoteCall) (e : String)
    (hkhigh : ak.risk = "high" → oracle.high i = true)
    (hd : execute_single_action client zoneId ak = (cs, .error e))
    (hi : i + 1 < total)
    (hcont : oracle.cont i = false) :
    runLoop client zoneId oracle total (ak :: post) i st =
      { outcomes := st.outcomes ++ [.failed e] ++
          List.replicate post.length .skipped
        succ := st.succ
        fail := st.fail + 1
        calls := st.calls ++ cs } := by
  rw [runLoop]
  have hguard : ¬(ak.risk = "high" ∧ oracle.high i = false) := by
    rintro ⟨hr, hh⟩
    rw [hkhigh hr] at hh
    exact Bool.noConfusion hh
  rw [if_neg hguard, hd]
  simp only [hi, if_true, hcont, Bool.false_eq_true, if_false]

/-- C3: for every plan `pre ++ [ak] ++ post` where the prefix passes its
gates and dispatches successfully, `ak` fails at dispatch, a later
action remains (`post ≠ []`) and the continuation prompt is declined,
the run stops early: the prefix outcomes are its dispatch successes,
`ak`'s Outcome is failed, every later action is skipped with no remote
call, and the report's total is the full plan length. -/
theorem execute_actions_fail_then_decline (client : Client) (zoneId : String)
    (oracle : ConfirmOracle) (pre post : List SuggestedAction)
    (ak : SuggestedAction) (e : String)
    (hbatch : oracle.batch = true)
    (hpre : ∀ j (hj : j < pre.length),
      ((pre.get ⟨j, hj⟩).risk = "high" → oracle.high j = true) ∧
      ∃ msg, (execute_single_action client zoneId (pre.get ⟨j, hj⟩)).2 = .ok msg)
    (hkhigh : ak.risk = "high" → oracle.high pre.length = true)
    (hkfail : (execute_single_action client zoneId ak).2 = .error e)
    (hcont : oracle.cont pre.length = false)
    (hpost : post ≠ []) :
    execute_actions client zoneId oracle (pre ++ ak :: post) =
      { outcomes := successOutcomes client zoneId pre ++ [Outcome.failed e] ++
          List.replicate post.length Outcome.skipped
        succeeded := pre.length
        failed := 1
        total := pre.length + 1 + post.length
        calls := callsOf client zoneId pre ++
          (execute_single_action client zoneId ak).1 } := by
  have hnil : ¬((pre ++ ak :: post).isEmpty = true) := by simp
  have hb : ¬(oracle.batch = false) := by rw [hbatch]; simp
  have hN : (pre ++ ak :: post).length = pre.length + 1 + post.length := by
    simp
    omega
  unfold execute_actions
  rw [if_neg hnil, if_neg hb]
  rw [runLoop_append_success client zoneId oracle (pre ++ ak :: post).length
    pre (ak :: post) 0 ⟨[], 0, 0, []⟩ (by simpa using hpre)]
  cases hd : execute_single_action client zoneId ak with
  | mk cs r =>
    rw [hd] at hkfail
    simp only at hkfail
    subst hkfail
    rw [runLoop_fail_break client zoneId oracle (pre ++ ak :: post).length
      ak post (0 + pre.length) _ cs e (by simpa using hkhigh) hd
      (by rw [hN]; have := List.length_pos.mpr hpost; omega)
      (by simpa using hcont)]
    rw [pushAll_spec]
    simp [hN, hd]
    try omega

/-- An oracle that confirms the batch and high-risk prompts but declines
every continuation prompt. -/
def noContOracle : ConfirmOracle := ⟨true, fun _ => true, fun _ => false⟩

/-- An action with an unrecognized kind token (fails at dispatch). -/
def actUnknown : SuggestedAction :=
  ⟨"teleport", "beam me up", Json.obj [], "low"⟩

/-- C3 witness: a three-action plan whose middle action fails, with the
continuation declined: index 0 dispatched, index 1 failed, index 2
skipped, total 3, and only index 0's remote call issued. -/
theorem execute_actions_fail_then_decline_witness :
    execute_actions okClient "z1" noContOracle [actDelete, actUnknown, actPurge] =
      { outcomes := [Outcome.success "DNS 记录已删除: r9",
          Outcome.failed "未知的操作类型: teleport", Outcome.skipped]
        succeeded := 1
        failed := 1
        total := 3
        calls := [RemoteCall.deleteDnsRecord "z1" "r9"] } := by
  have h := execute_actions_fail_then_decline okClient "z1" noContOracle
    [actDelete] [actPurge] actUnknown "未知的操作类型: teleport"
    rfl
    (by
      intro j hj
      have hj0 : j = 0 := by simpa using hj
      subst hj0
      exact ⟨fun _ => rfl, ⟨"DNS 记录已删除: r9", rfl⟩⟩)
    (fun _ => rfl) rfl rfl (List.cons_ne_nil _ _)
  rw [show ([actDelete] ++ actUnknown :: [actPurge]) =
    [actDelete, actUnknown, actPurge] from rfl] at h
  rw [h]
  rfl

/-! ### C4 — declined per-action high-risk confirmation -/

/-- The loop consults the oracle only at indices from the current one
onward. -/
theorem runLoop_congr (client : Client) (zoneId : String)
    (o1 o2 : ConfirmOracle) (total : Nat) :
    ∀ (L : List SuggestedAction) (i : Nat) (st : ExecState),
      (∀ j, i ≤ j → o1.high j = o2.high j) →
      (∀ j, i ≤ j → o1.cont j = o2.cont j) →
      runLoop client zoneId o1 total L i st =
        runLoop client zoneId o2 total L i st := by
  intro L
  induction L with
  | nil => intro i st _ _; rfl
  | cons a rest ih =>
    intro i st hh hc
    have ihnext : ∀ st', runLoop client zoneId o1 total rest (i + 1) st' =
        runLoop client zoneId o2 total rest (i + 1) st' :=
      fun st' => ih (i + 1) st' (fun j hj => hh j (by omega))
        (fun j hj => hc j (by omega))
    rw [runLoop, runLoop, hh i (Nat.le_refl i)]
    by_cases hg : a.risk = "high" ∧ o2.high i = false
    · rw [if_pos hg, if_pos hg]
      exact ihnext _
    · rw [if_neg hg, if_neg hg]
      simp only [hc i (Nat.le_refl i), ihnext]

/-- The loop only ever appends to the outcomes accumulated so far. -/
theorem runLoop_outcomes_extend (client : Client) (zoneId : String)
    (oracle : ConfirmOracle) (total : Nat) :
    ∀ (L : List SuggestedAction) (i : Nat) (st : ExecState),
      ∃ tail, (runLoop client zoneId oracle total L i st).outcomes =
        st.outcomes ++ tail := by
  intro L
  induction L with
  | nil => intro i st; exact ⟨[], by simp [runLoop]⟩
  | cons a rest ih =>
    intro i st
    rw [runLoop]
    by_cases hg : a.risk = "high" ∧ oracle.high i = false
    · rw [if_pos hg]
      obtain ⟨t, ht⟩ := ih (i + 1)
        { st with outcomes := st.outcomes ++ [.skipped] }
      exact ⟨[Outcome.skipped] ++ t, by simpa using ht⟩
    · rw [if_neg hg]
      cases hd : execute_single_action client zoneId a with
      | mk cs r =>
        cases r with
        | ok m =>
          obtain ⟨t, ht⟩ := ih (i + 1)
            { outcomes := st.outcomes ++ [.success m], succ := st.succ + 1,
              fail := st.fail, calls := st.calls ++ cs }
          exact ⟨[Outcome.success m] ++ t, by simpa using ht⟩
        | error e =>
          by_cases hi : i + 1 < total
          · by_cases hct : oracle.cont i = true
            · simp only [hi, if_true, hct]
              obtain ⟨t, ht⟩ := ih (i + 1)
                { outcomes := st.outcomes ++ [.failed e], succ := st.succ,
                  fail := st.fail + 1, calls := st.calls ++ cs }
              exact ⟨[Outcome.failed e] ++ t, by simpa using ht⟩
            · simp only [hi, if_true, hct, Bool.false_eq_true, if_false]
              exact ⟨[Outcome.failed e] ++ List.replicate rest.length .skipped,
                by simp⟩
          · simp only [hi, if_false]
            obtain ⟨t, ht⟩ := ih (i + 1)
              { outcomes := st.outcomes ++ [.failed e], succ := st.succ,
                fail := st.fail + 1, calls := st.calls ++ cs }
            exact ⟨[Outcome.failed e] ++ t, by simpa using ht⟩

/-- Declining the per-action gate of a high-risk action records a skip
and hands the loop on to the remaining actions, with no dispatch of the
declined action. -/
theorem execute_actions_skip_high_eq (client : Client) (zoneId : String)
    (oracle : ConfirmOracle) (pre post : List SuggestedAction)
    (ah : SuggestedAction)
    (hbatch : oracle.batch = true)
    (hpre : ∀ j (hj : j < pre.length),
      ((pre.get ⟨j, hj⟩).risk = "high" → oracle.high j = true) ∧
      ∃ msg, (execute_single_action client zoneId (pre.get ⟨j, hj⟩)).2 = .ok msg)
    (hrisk : ah.risk = "high")
    (hdecl : oracle.high pre.length = false) :
    execute_actions client zoneId oracle (pre ++ ah :: post) =
      (let st := runLoop client zoneId oracle (pre.length + 1 + post.length)
          post (pre.length + 1)
          { outcomes := successOutcomes client zoneId pre ++ [Outcome.skipped]
            succ := pre.length
            fail := 0
            calls := callsOf client zoneId pre };
        ⟨st.outcomes, st.succ, st.fail, pre.length + 1 + post.length, st.calls⟩) := by
  have hnil : ¬((pre ++ ah :: post).isEmpty = true) := by simp
  have hb : ¬(oracle.batch = false) := by rw [hbatch]; simp
  have hN : (pre ++ ah :: post).length = pre.length + 1 + post.length := by
    simp
    omega
  unfold execute_actions
  rw [if_neg hnil, if_neg hb, hN]
  rw [runLoop_append_success client zoneId oracle (pre.length + 1 + post.length)
    pre (ah :: post) 0 ⟨[], 0, 0, []⟩ (by simpa using hpre)]
  rw [runLoop]
  rw [if_pos ⟨hrisk, by simpa using hdecl⟩]
  rw [pushAll_spec]
  simp

/-- C4: for every plan `pre ++ [ah] ++ post` with `ah` high-risk, a
passing prefix, and the per-action gate for `ah` declined: `ah`'s
Outcome is skipped, no remote call is made for it (the calls entering
the rest of the run are exactly the prefix's), execution proceeds with
the remaining actions at the next index, and no continuation prompt is
consulted for it — the report is unchanged under any answer the
continuation oracle would give at `ah`'s index. -/
theorem execute_actions_high_risk_declined (client : Client) (zoneId : String)
    (oracle : ConfirmOracle) (pre post : List SuggestedAction)
    (ah : SuggestedAction)
    (hbatch : oracle.batch = true)
    (hpre : ∀ j (hj : j < pre.length),
      ((pre.get ⟨j, hj⟩).risk = "high" → oracle.high j = true) ∧
      ∃ msg, (execute_single_action client zoneId (pre.get ⟨j, hj⟩)).2 = .ok msg)
    (hrisk : ah.risk = "high")
    (hdecl : oracle.high pre.length = false) :
    execute_actions client zoneId oracle (pre ++ ah :: post) =
      (let st := runLoop client zoneId oracle (pre.length + 1 + post.length)
          post (pre.length + 1)
          { outcomes := successOutcomes client zoneId pre ++ [Outcome.skipped]
            succ := pre.length
            fail := 0
            calls := callsOf client zoneId pre };
        ⟨st.outcomes, st.succ, st.fail, pre.length + 1 + post.length, st.calls⟩) ∧
    (execute_actions client zoneId oracle (pre ++ ah :: post)).outcomes.get?
        pre.length = some Outcome.skipped ∧
    (∀ oracle' : ConfirmOracle, oracle'.batch = oracle.batch →
      oracle'.high = oracle.high →
      (∀ j, j ≠ pre.length → oracle'.cont j = oracle.cont j) →
      execute_actions client zoneId oracle' (pre ++ ah :: post) =
        execute_actions client zoneId oracle (pre ++ ah :: post)) := by
  have hmain := execute_actions_skip_high_eq client zoneId oracle pre post ah
    hbatch hpre hrisk hdecl
  refine ⟨hmain, ?_, ?_⟩
  · rw [hmain]
    obtain ⟨tail, htail⟩ := runLoop_outcomes_extend client zoneId oracle
      (pre.length + 1 + post.length) post (pre.length + 1)
      { outcomes := successOutcomes client zoneId pre ++ [Outcome.skipped]
        succ := pre.length
        fail := 0
        calls := callsOf client zoneId pre }
    simp only [htail]
    have hlen : (successOutcomes client zoneId pre).length = pre.length := by
      simp [successOutcomes]
    rw [List.append_assoc, List.get?_append_right (by omega)]
    simp [hlen]
  · intro oracle' hb' hh' hc'
    have hmain' := execute_actions_skip_high_eq client zoneId oracle' pre post ah
      (by rw [hb', hbatch])
      (by
        intro j hj
        refine ⟨?_, (hpre j hj).2⟩
        intro hr
        rw [hh']
        exact (hpre j hj).1 hr)
      hrisk (by rw [hh']; exact hdecl)
    rw [hmain, hmain']
    have hcongr : ∀ st', runLoop client zoneId oracle'
        (pre.length + 1 + post.length) post (pre.length + 1) st' =
        runLoop client zoneId oracle
          (pre.length + 1 + post.length) post (pre.length + 1) st' :=
      fun st' => runLoop_congr client zoneId oracle' oracle
        (pre.length + 1 + post.length) post (pre.length + 1) st'
        (fun j _ => by rw [hh'])
        (fun j hj => hc' j (by omega))
    simp only [hcongr]

/-- An oracle that confirms the batch prompt but declines every
high-risk prompt. -/
def noHighOracle : ConfirmOracle := ⟨true, fun _ => false, fun _ => true⟩

/-- A high-risk purge action. -/
def actHigh : SuggestedAction :=
  ⟨"cache_purge", "dangerous purge",
    Json.obj [("type", Json.str "purge_all")], "high"⟩

/-- C4 witness: a three-action plan whose middle action is high-risk and
declined: it is skipped with no remote call, and the third action still
runs (no continuation prompt in between). -/
theorem execute_actions_high_risk_declined_witness :
    execute_actions okClient "z1" noHighOracle [actDelete, actHigh, actPurge] =
      { outcomes := [Outcome.success "DNS 记录已删除: r9", Outcome.skipped,
          Outcome.success "已清除全部缓存"]
        succeeded := 2
        failed := 0
        total := 3
        calls := [RemoteCall.deleteDnsRecord "z1" "r9",
          RemoteCall.purgeAllCache "z1"] } ∧
    (execute_actions okClient "z1" noHighOracle
      [actDelete, actHigh, actPurge]).outcomes.get? 1 = some Outcome.skipped := by
  have h := execute_actions_high_risk_declined okClient "z1" noHighOracle
    [actDelete] [actPurge] actHigh rfl
    (by
      intro j hj
      have hj0 : j = 0 := by simpa using hj
      subst hj0
      exact ⟨fun hcontra =>
        absurd (show ("low" : String) = "high" from hcontra) (by decide),
        ⟨"DNS 记录已删除: r9", rfl⟩⟩)
    rfl rfl
  have hlist : ([actDelete] ++ actHigh :: [actPurge]) =
      [actDelete, actHigh, actPurge] := rfl
  rw [hlist] at h
  refine ⟨?_, h.2.1⟩
  rw [h.1]
  rfl

/-! ### Extraction lemmas (for C6, C7, C9) -/

theorem isPrefixOf_append_self : ∀ (pat r : List Char),
    pat.isPrefixOf (pat ++ r) = true := by
  intro pat r
  induction pat with
  | nil => simp
  | cons c cs ih => simp [List.isPrefixOf_cons₂, ih]

theorem findSubAux_append (pr : List Char) :
    ∀ (p : List Char) (t : List Char) (i : Nat), (∀ ch ∈ p, ch ≠ '`') →
      (('`' :: pr).isPrefixOf t = true) →
      findSubAux ('`' :: pr) (p ++ t) i = some (i + p.length) := by
  intro p
  induction p with
  | nil =>
    intro t i _ ht
    cases t with
    | nil => exact absurd ht (by simp)
    | cons c r =>
      simp only [List.nil_append]
      rw [findSubAux, if_pos ht]
      simp
  | cons c p' ih =>
    intro t i hp ht
    have hcne : c ≠ '`' := hp c (by simp)
    have hbe : ('`' == c) = false := beq_eq_false_iff_ne.mpr (fun h => hcne h.symm)
    have hpre : ('`' :: pr).isPrefixOf (c :: (p' ++ t)) = false := by
      simp [List.isPrefixOf_cons₂, hbe]
    rw [List.cons_append, findSubAux, hpre]
    simp only [Bool.false_eq_true, if_false]
    rw [ih t (i + 1) (fun ch hch => hp ch (by simp [hch])) ht]
    have : i + 1 + p'.length = i + (c :: p').length := by simp; omega
    rw [this]

theorem findSub_literal (pr p t : List Char) (hp : ∀ ch ∈ p, ch ≠ '`')
    (ht : ('`' :: pr).isPrefixOf t = true) :
    findSub (p ++ t) ('`' :: pr) = some p.length := by
  have := findSubAux_append pr p t 0 hp ht
  simpa [findSub] using this

/-- `extract_actions` on a text whose first fenced block is explicit:
the block's trimmed content is parsed; on success its `actions` are the
result, and on failure the fallback parses the whole original text. -/
theorem extract_actions_fenced (p c1 r2 : List Char)
    (hp : ∀ ch ∈ p, ch ≠ '`') (hc : ∀ ch ∈ c1, ch ≠ '`') :
    extract_actions (p ++ openMarker ++ c1 ++ closeMarker ++ r2) =
      match parsePlan (trimChars c1) with
      | some plan => plan.actions
      | none => wholeAttempt (p ++ openMarker ++ c1 ++ closeMarker ++ r2) := by
  have htext : p ++ openMarker ++ c1 ++ closeMarker ++ r2 =
      p ++ (openMarker ++ (c1 ++ (closeMarker ++ r2))) := by
    simp [List.append_assoc]
  rw [htext]
  have hfind1 : findSub (p ++ (openMarker ++ (c1 ++ (closeMarker ++ r2))))
      openMarker = some p.length :=
    findSub_literal "``json".data p (openMarker ++ (c1 ++ (closeMarker ++ r2)))
      hp (isPrefixOf_append_self openMarker _)
  have hdrop : (p ++ (openMarker ++ (c1 ++ (closeMarker ++ r2)))).drop
      (p.length + 7) = c1 ++ (closeMarker ++ r2) := by
    have hl : (p ++ openMarker).length = p.length + 7 := by
      simp [openMarker]
    calc (p ++ (openMarker ++ (c1 ++ (closeMarker ++ r2)))).drop (p.length + 7)
        = ((p ++ openMarker) ++ (c1 ++ (closeMarker ++ r2))).drop
            (p ++ openMarker).length := by rw [hl, List.append_assoc]
      _ = c1 ++ (closeMarker ++ r2) := List.drop_left _ _
  have hfind2 : findSub (c1 ++ (closeMarker ++ r2)) closeMarker =
      some c1.length :=
    findSub_literal "``".data c1 (closeMarker ++ r2) hc
      (isPrefixOf_append_self closeMarker _)
  have htake : (c1 ++ (closeMarker ++ r2)).take c1.length = c1 :=
    List.take_left _ _
  unfold extract_actions
  rw [hfind1]
  simp only [hdrop, hfind2, htake]

/-! ### C6 — extraction never fails; no payload means an empty plan -/

/-- C6: `extract_actions` is a total function (its Lean embedding is a
plain function, mirroring the Rust source, whose only outputs are
`some actions` or `none`); and for every text in which neither the first
fenced block's trimmed content nor the whole text parses as an
`AiActionPlan`, it returns `none` — the empty plan, carrying no actions
and no explanation. -/
theorem extract_actions_default_empty (text : List Char)
    (hfence : ∀ s e, findSub text openMarker = some s →
      findSub (text.drop (s + 7)) closeMarker = some e →
      parsePlan (trimChars ((text.drop (s + 7)).take e)) = none)
    (hwhole : parsePlan text = none) :
    extract_actions text = none := by
  unfold extract_actions
  cases h1 : findSub text openMarker with
  | none => simp [wholeAttempt, hwhole]
  | some s =>
    cases h2 : findSub (text.drop (s + 7)) closeMarker with
    | none => simp [h2, wholeAttempt, hwhole]
    | some e =>
      simp [h2, hfence s e h1 h2, wholeAttempt, hwhole]

/-- C6 witness: plain prose with no JSON yields no actions. -/
theorem extract_actions_default_empty_witness :
    extract_actions ("hello world, no JSON here".data) = none := by
  apply extract_actions_default_empty
  · intro s e hs _
    rw [show findSub ("hello world, no JSON here".data) openMarker = none
      from rfl] at hs
    exact Option.noConfusion hs
  · rfl

/-! ### C7 — only the first fenced block; fallback on the whole text -/

/-- C7: in a text with two fenced blocks (the first opening fence
preceded by backtick-free prose, with backtick-free content `c1`), only
the first block is considered: the result depends on `c1`'s parse alone,
and when that parse fails the fallback parses the entire original text —
not the remainder after the block. -/
theorem extract_first_fence_only (p c1 mid c2 r2 : List Char)
    (hp : ∀ ch ∈ p, ch ≠ '`') (hc : ∀ ch ∈ c1, ch ≠ '`') :
    extract_actions (p ++ openMarker ++ c1 ++ closeMarker ++
        (mid ++ openMarker ++ c2 ++ closeMarker ++ r2)) =
      match parsePlan (trimChars c1) with
      | some plan => plan.actions
      | none => wholeAttempt (p ++ openMarker ++ c1 ++ closeMarker ++
          (mid ++ openMarker ++ c2 ++ closeMarker ++ r2)) :=
  extract_actions_fenced p c1 (mid ++ openMarker ++ c2 ++ closeMarker ++ r2)
    hp hc

/-- C7 witness: the first fenced block is malformed and the second is a
valid plan; extraction ignores the second block, falls back to the whole
original text (which does not parse either), and yields no actions. -/
theorem extract_first_fence_only_witness :
    extract_actions ("Sure: ".data ++ openMarker ++ " BAD ".data ++ closeMarker ++
        (" and ".data ++ openMarker ++
          " \x7b\"actions\": []\x7d ".data ++ closeMarker ++ " end".data)) =
      none := by
  rw [extract_first_fence_only "Sure: ".data " BAD ".data " and ".data
    " \x7b\"actions\": []\x7d ".data " end".data (by decide) (by decide)]
  rfl

/-! ### C9 — what extraction returns for a valid fenced plan -/

/-- A fenced plan whose explanation is the only difference from
`c9textB`. -/
def c9textA : List Char :=
  "```json\n\x7b\"actions\": [], \"explanation\": \"AAA\"\x7d\n```".data

/-- A fenced plan whose explanation is the only difference from
`c9textA`. -/
def c9textB : List Char :=
  "```json\n\x7b\"actions\": [], \"explanation\": \"BBB\"\x7d\n```".data

/-- C9 counterexample: the claim says extraction returns the explanation
encoded in the fenced object, but `extract_actions` returns only the
`actions` field (`analyzer.rs:161-162` returns `plan.actions`,
discarding `plan.explanation`): two texts whose plans differ only in
their explanations produce identical extraction results, so no reading
of the result can return the encoded explanation. -/
theorem extract_drops_explanation_counterexample :
    extract_actions c9textA = extract_actions c9textB ∧
    (parsePlan ("\x7b\"actions\": [], \"explanation\": \"AAA\"\x7d".data)).map
      AiActionPlan.explanation = some (some "AAA") ∧
    (parsePlan ("\x7b\"actions\": [], \"explanation\": \"BBB\"\x7d".data)).map
      AiActionPlan.explanation = some (some "BBB") ∧
    ¬∃ f : Option (List SuggestedAction) → Option String,
      f (extract_actions c9textA) = some "AAA" ∧
      f (extract_actions c9textB) = some "BBB" := by
  refine ⟨rfl, rfl, rfl, ?_⟩
  rintro ⟨f, h1, h2⟩
  rw [show extract_actions c9textA = extract_actions c9textB from rfl] at h1
  have h3 : some ("AAA" : String) = some "BBB" := h1.symm.trans h2
  simp at h3

/-- C9 amended: for every text whose first fenced block parses as an
ActionPlan, extraction returns exactly the plan's `actions` — in
encoded order, with all fields including `risk` preserved verbatim by
deserialization (unrecognized risk tokens stay distinct from `low`) —
while the encoded explanation is parsed but not returned. -/
theorem extract_returns_encoded_actions (p c1 r2 : List Char)
    (hp : ∀ ch ∈ p, ch ≠ '`') (hc : ∀ ch ∈ c1, ch ≠ '`')
    (plan : AiActionPlan) (hparse : parsePlan (trimChars c1) = some plan) :
    extract_actions (p ++ openMarker ++ c1 ++ closeMarker ++ r2) =
      plan.actions ∧
    (∀ t d pv r, decodeAction (Json.obj [("type", Json.str t),
        ("description", Json.str d), ("params", pv), ("risk", Json.str r)]) =
      some ⟨t, d, pv, r⟩) ∧
    (∀ vs acts, decodeActions vs = some acts →
      decodePlan (Json.obj [("actions", Json.arr vs)]) =
        some ⟨some acts, none⟩) := by
  refine ⟨?_, ?_, ?_⟩
  · rw [extract_actions_fenced p c1 r2 hp hc, hparse]
  · intro t d pv r
    rfl
  · intro vs acts h
    simp [decodePlan, countKey, lookupField, h]

set_option maxRecDepth 8192 in
/-- C9 amended witness: spec scenario A's fenced plan (with an added
explanation and a nonstandard risk token) extracts to exactly the
encoded action list, risk string intact; the explanation is not
returned. -/
theorem extract_returns_encoded_actions_witness :
    extract_actions ("Sure, here: ".data ++ openMarker ++
        ("\n\x7b\"actions\": [\x7b\"type\": \"dns_create\", \"description\": \"add www\", " ++
         "\"params\": \x7b\"name\": \"www\"\x7d, \"risk\": \"severe\"\x7d], " ++
         "\"explanation\": \"adds a record\"\x7d\n").data ++ closeMarker ++
        "\nDone.".data) =
      some [⟨"dns_create", "add www",
        Json.obj [("name", Json.str "www")], "severe"⟩] :=
  (extract_returns_encoded_actions "Sure, here: ".data
    ("\n\x7b\"actions\": [\x7b\"type\": \"dns_create\", \"description\": \"add www\", " ++
     "\"params\": \x7b\"name\": \"www\"\x7d, \"risk\": \"severe\"\x7d], " ++
     "\"explanation\": \"adds a record\"\x7d\n").data "\nDone.".data
    (by decide) (by decide)
    ⟨some [⟨"dns_create", "add www", Json.obj [("name", Json.str "www")],
      "severe"⟩], some "adds a record"⟩
    (by rfl)).1

end Cfai
